import Mathlib

/-!
Verification development for the earlyoom daemon (yellowcrescent fork).

The embedding below translates the C sources (`src/kill.c`, `src/main.c`,
`src/kill.h`, `src/meminfo.h`) into Lean definitions:

* floating-point percentages (C `double`) are modelled as `Rat`; the daemon
  only compares them with `≤` / `<`, and computes one product inside
  `sleep_time_ms`, so rationals are an exact model of every comparison the
  code performs (the float values involved are small and the thresholds are
  user-supplied percentages);
* every fallible per-PID read (`get_oom_score`, `get_oom_score_adj`,
  `get_comm`, `get_vm_rss_kib`, `get_uid`, `stat`, `getpwuid`,
  `get_process_times`) is modelled by `Option` / `Bool` data carried by the
  process-table entry that the scan observes;
* POSIX regexes are not interpreted: a compiled regex is modelled by its
  presence flag in the argument record, and the outcome of `regexec` on a
  given process name is data carried by the scanned entry;
* signals are plain integers (`SIGKILL = 9`, `SIGTERM = 15`), and a
  delivered signal is an event `(pid, sig)` collected in a list.
-/

/-- Signal number of SIGKILL on Linux. -/
def SIGKILL : Int := 9

/-- Signal number of SIGTERM on Linux. -/
def SIGTERM : Int := 15

/-- Badness bonus for processes matching `prefer_regex` (kill.c line 24). -/
def BADNESS_PREFER : Int := 300

/-- Badness malus for processes matching `avoid_regex` (kill.c line 25). -/
def BADNESS_AVOID : Int := -300

/-- Badness malus for users matching `avoid_users` (kill.c line 26). -/
def BADNESS_AVOID_USER : Int := -150

/-- Divisor turning runtime seconds into a badness bonus (kill.c line 27). -/
def BADNESS_AGE_DIV : Nat := 600

/-- Minimum time between invocations of `kill_emergency`, in milliseconds
(main.c line 37). -/
def EMERGENCY_TIMEOUT : Int := 30000

/-- The memory snapshot produced by `parse_meminfo` (meminfo.h, `meminfo_t`);
only the fields the poll loop and the killers read are modelled. -/
structure Meminfo where
  MemAvailablePercent : Rat
  SwapFreePercent : Rat
  MemTotalMiB : Int
  SwapTotalMiB : Int
deriving DecidableEq

/-- The argument record `poll_loop_args_t` (kill.h). A compiled regex is
modelled by the `Bool` saying whether the pointer is non-NULL; `emerg_kill`
is `none` for a NULL pointer and otherwise carries the already-split,
comma-separated list of emergency victim names. `selfPid` models `getpid()`. -/
structure PollLoopArgs where
  mem_high_percent : Rat
  mem_term_percent : Rat
  mem_kill_percent : Rat
  mem_emerg_percent : Rat
  swap_term_percent : Rat
  swap_kill_percent : Rat
  ignore_oom_score_adj : Bool
  notify : Bool
  prefer_regex : Bool
  avoid_regex : Bool
  avoid_users : Bool
  prefer_old : Bool
  report_interval_ms : Int
  dryrun : Bool
  emerg_kill : Option (List String)
  selfPid : Int
deriving DecidableEq

/-- One numeric `/proc` directory entry as observed by the selection scan in
`kill_largest_process`, together with the outcome every per-PID read would
have for it. `oom_score`, `oom_score_adj`, `rss`, `uid` are `none` when the
corresponding read fails; `comm_ok` is the success of `get_comm`;
`ptimes_valid` is the `valid` flag of `get_process_times`; `rtime` is the
computed `c_runtime` in seconds; the `*_match` flags are the outcomes of
`regexec` for the four optional regexes on this entry's name / username;
`stat_ok` and `pw_ok` are the successes of `stat` and `getpwuid`. -/
structure ProcEntry where
  pid : Int
  oom_score : Option Int
  oom_score_adj : Option Int
  ptimes_valid : Bool
  rtime : Nat
  comm_ok : Bool
  prefer_match : Bool
  avoid_match : Bool
  prefer_old_match : Bool
  stat_ok : Bool
  pw_ok : Bool
  user_match : Bool
  rss : Option Int
  uid : Option Int
deriving DecidableEq

/-- The fields of `struct procinfo` that survive into the running victim of
`kill_largest_process` (meminfo.h). -/
structure Procinfo where
  pid : Int
  uid : Int
  badness : Int
  VmRSSkiB : Int
deriving DecidableEq

/-- The `avoid_users` step of the badness computation (kill.c lines 225-241):
a failing `stat` or `getpwuid` silently drops the candidate; a username
matching `avoid_users` adds `BADNESS_AVOID_USER`. -/
def avoidUsersStep (args : PollLoopArgs) (e : ProcEntry) (b : Int) : Option Int :=
  if args.avoid_users then
    if ¬ e.stat_ok then none
    else if ¬ e.pw_ok then none
    else if e.user_match then some (b + BADNESS_AVOID_USER) else some b
  else some b

/-- The `ignore_oom_score_adj` step of the badness computation (kill.c lines
183-193): when the flag is set, a failing `oom_score_adj` read drops the
candidate and a positive adjustment is subtracted from the badness. -/
def adjStep (args : PollLoopArgs) (e : ProcEntry) (sc : Int) : Option Int :=
  if args.ignore_oom_score_adj then
    match e.oom_score_adj with
    | none => none
    | some adj => some (if 0 < adj then sc - adj else sc)
  else some sc

/-- The regex block of the badness computation (kill.c lines 206-223) followed
by the `avoid_users` step: when any of `prefer_regex` / `avoid_regex` /
`prefer_old` is configured, a failing `get_comm` drops the candidate, a
`prefer_regex` match adds `BADNESS_PREFER`, an `avoid_regex` match adds
`BADNESS_AVOID`, and a `prefer_old` match with valid process times adds
`c_runtime / BADNESS_AGE_DIV`. -/
def regexUserSteps (args : PollLoopArgs) (e : ProcEntry) (b : Int) : Option Int :=
  if args.prefer_regex ∨ args.avoid_regex ∨ args.prefer_old then
    if ¬ e.comm_ok then none
    else avoidUsersStep args e
      (b + (if args.prefer_regex ∧ e.prefer_match then BADNESS_PREFER else 0)
         + (if args.avoid_regex ∧ e.avoid_match then BADNESS_AVOID else 0)
         + (if args.prefer_old ∧ e.prefer_old_match ∧ e.ptimes_valid
            then ((e.rtime / BADNESS_AGE_DIV : Nat) : Int) else 0))
  else avoidUsersStep args e b

/-- Badness computation for one candidate, kill.c lines 175-241: start from
`oom_score` (dropping the candidate if it cannot be read), then the
`ignore_oom_score_adj` step, the regex bonuses and the `avoid_users` step.
`none` means the candidate is dropped by a failing read. -/
def computeBadness (args : PollLoopArgs) (e : ProcEntry) : Option Int :=
  match e.oom_score with
  | none => none
  | some sc =>
    match adjStep args e sc with
    | none => none
    | some b => regexUserSteps args e b

/-- One step of the selection scan of `kill_largest_process`
(kill.c lines 145-310) against the running `victim`: skip non-process pids
(`pid ≤ 1`), candidates dropped by the badness computation, candidates whose
badness is below the running victim, failing or zero RSS reads, full badness
ties that do not beat the victim's RSS, a failing `oom_score_adj` re-read or
an `oom_score_adj` of -1000, a failing name fill-in, and a failing uid read;
otherwise the candidate becomes the new victim. -/
def scanStep (args : PollLoopArgs) (v : Procinfo) (e : ProcEntry) : Procinfo :=
  if e.pid ≤ 1 then v
  else
    match computeBadness args e with
    | none => v
    | some b =>
      if b < v.badness then v
      else
        match e.rss with
        | none => v
        | some rss =>
          if rss = 0 then v
          else if b = v.badness ∧ rss ≤ v.VmRSSkiB then v
          else
            match e.oom_score_adj with
            | none => v
            | some adj =>
              if adj = -1000 then v
              else if ¬ e.comm_ok then v
              else
                match e.uid with
                | none => v
                | some uid => ⟨e.pid, uid, b, rss⟩

/-- The whole selection scan: `struct procinfo victim = { 0 }` zero-initialises
the running victim (pid 0, badness 0, VmRSSkiB 0), and the `/proc` entries are
folded over it in directory order (kill.c lines 128 and 145-310). -/
def kill_select (args : PollLoopArgs) (es : List ProcEntry) : Procinfo :=
  es.foldl (scanStep args) ⟨0, 0, 0, 0⟩

/-- Number of candidates counted by the scan (kill.c line 244): entries with
`pid > 1` whose badness computation completed. -/
def countCandidates (args : PollLoopArgs) (es : List ProcEntry) : Nat :=
  (es.filter (fun e => decide (1 < e.pid) && (computeBadness args e).isSome)).length

/-- A surviving candidate of the scan: a real process (`pid > 1`) for which
every read performed on the examined path succeeds, whose RSS is nonzero and
whose `oom_score_adj` is not -1000 — i.e. an entry that no filter other than
the comparison against the running victim can skip. -/
def surviving (args : PollLoopArgs) (e : ProcEntry) : Prop :=
  1 < e.pid ∧ (computeBadness args e).isSome ∧ e.comm_ok = true ∧
    e.rss.isSome ∧ e.rss.getD 0 ≠ 0 ∧
    e.oom_score_adj.isSome ∧ e.oom_score_adj.getD 0 ≠ -1000 ∧ e.uid.isSome

instance (args : PollLoopArgs) (e : ProcEntry) : Decidable (surviving args e) := by
  unfold surviving
  infer_instance

/-- C1 counterexample arguments: only `avoid_regex` is configured. -/
def c1Args : PollLoopArgs :=
  { mem_high_percent := 15, mem_term_percent := 10, mem_kill_percent := 5,
    mem_emerg_percent := 2, swap_term_percent := 10, swap_kill_percent := 5,
    ignore_oom_score_adj := false, notify := false,
    prefer_regex := false, avoid_regex := true, avoid_users := false,
    prefer_old := false, report_interval_ms := 1000, dryrun := false,
    emerg_kill := none, selfPid := 1000 }

/-- C1 counterexample entry: a perfectly readable process whose name matches
`avoid_regex`, so its badness is 0 - 300 = -300. -/
def c1Entry : ProcEntry :=
  { pid := 2, oom_score := some 0, oom_score_adj := some 0,
    ptimes_valid := false, rtime := 0, comm_ok := true,
    prefer_match := false, avoid_match := true, prefer_old_match := false,
    stat_ok := true, pw_ok := true, user_match := false,
    rss := some 5000, uid := some 33 }

/-- C1 (counterexample): the claim says the first surviving candidate of the
scan unconditionally becomes the initial best. In the code the running victim
starts as the zero-initialised struct (badness 0), so a first surviving
candidate with negative badness — here oom_score 0 with an `avoid_regex`
match, badness -300 — is skipped by `cur.badness < victim.badness` and the
scan ends with no victim (pid 0) instead of this candidate. -/
theorem C1_counterexample :
    surviving c1Args c1Entry ∧
      computeBadness c1Args c1Entry = some (-300) ∧
      kill_select c1Args [c1Entry] = ⟨0, 0, 0, 0⟩ ∧
      c1Entry.pid = 2 := by
  refine ⟨?_, ?_, ?_, ?_⟩ <;> decide

/-- C1 (amended): the scan is a left fold whose running best starts as the
zero-initialised victim (pid 0, badness 0, rss 0) — not as the first surviving
candidate — and a surviving candidate `c` replaces the current best `v` iff
`c.badness > v.badness`, or `c.badness = v.badness` and `c.VmRSSkiB > v.VmRSSkiB`;
consequently surviving candidates with negative badness can never become the
best, and among candidates with badness ≥ 0 the victim is the lexicographic
`(badness, VmRSSkiB)` maximum with first-seen winning full ties. -/
theorem C1_selection_amended (args : PollLoopArgs) (v : Procinfo) (e : ProcEntry)
    (h : surviving args e) :
    scanStep args v e =
      (if v.badness < (computeBadness args e).getD 0 ∨
          ((computeBadness args e).getD 0 = v.badness ∧ v.VmRSSkiB < e.rss.getD 0)
       then ⟨e.pid, e.uid.getD 0, (computeBadness args e).getD 0, e.rss.getD 0⟩
       else v) ∧
    (∀ es : List ProcEntry, kill_select args es = es.foldl (scanStep args) ⟨0, 0, 0, 0⟩) := by
  obtain ⟨hpid, hb, hcomm, hrs, hrz, has, hav, hus⟩ := h
  obtain ⟨b, hbv⟩ := Option.isSome_iff_exists.mp hb
  obtain ⟨r, hrv⟩ := Option.isSome_iff_exists.mp hrs
  obtain ⟨a, hav2⟩ := Option.isSome_iff_exists.mp has
  obtain ⟨u, huv⟩ := Option.isSome_iff_exists.mp hus
  rw [hrv] at hrz
  rw [hav2] at hav
  simp only [Option.getD_some] at hrz hav
  constructor
  · simp only [scanStep, hbv, hrv, hav2, huv, hcomm, Option.getD_some]
    split_ifs <;> first
      | rfl
      | omega
      | (exfalso; omega)
      | (exfalso; simp_all)
  · intro es
    rfl

/-- C1 witness data: a surviving entry with positive badness. -/
def c1Entry2 : ProcEntry :=
  { pid := 7, oom_score := some 40, oom_score_adj := some 0,
    ptimes_valid := false, rtime := 0, comm_ok := true,
    prefer_match := false, avoid_match := false, prefer_old_match := false,
    stat_ok := true, pw_ok := true, user_match := false,
    rss := some 1234, uid := some 33 }

/-- C1 witness: the amended replacement rule evaluated at a concrete running
victim and a concrete surviving candidate, and the fold shape of the scan. -/
theorem C1_selection_amended_witness :
    surviving c1Args c1Entry2 ∧
      scanStep c1Args ⟨3, 0, 40, 2000⟩ c1Entry2 = ⟨3, 0, 40, 2000⟩ ∧
      scanStep c1Args ⟨3, 0, 40, 100⟩ c1Entry2 = ⟨7, 33, 40, 1234⟩ ∧
      kill_select c1Args [c1Entry2] = List.foldl (scanStep c1Args) ⟨0, 0, 0, 0⟩ [c1Entry2] := by
  have hs : surviving c1Args c1Entry2 := by decide
  refine ⟨hs, ?_, ?_, (C1_selection_amended c1Args ⟨0, 0, 0, 0⟩ c1Entry2 hs).2 [c1Entry2]⟩
  · rw [(C1_selection_amended c1Args ⟨3, 0, 40, 2000⟩ c1Entry2 hs).1]
    decide
  · rw [(C1_selection_amended c1Args ⟨3, 0, 40, 100⟩ c1Entry2 hs).1]
    decide

/-- C4: for a candidate whose performed reads all succeed, the computed
badness is `oom_score`, minus `oom_score_adj` when `ignore_oom_score_adj` is
set and the adjustment is positive, plus 300 on a `prefer_regex` match, plus
-300 on an `avoid_regex` match, plus -150 on an `avoid_users` username match,
plus `runtime / 600` (integer division) on a `prefer_old` match
(kill.c lines 175-241). -/
theorem C4_badness_formula (args : PollLoopArgs) (e : ProcEntry) (sc : Int)
    (h1 : e.oom_score = some sc)
    (h2 : args.ignore_oom_score_adj = true → e.oom_score_adj.isSome)
    (h3 : args.prefer_regex = true ∨ args.avoid_regex = true ∨ args.prefer_old = true →
          e.comm_ok = true)
    (h4 : args.prefer_old = true → e.ptimes_valid = true)
    (h5 : args.avoid_users = true → e.stat_ok = true ∧ e.pw_ok = true) :
    computeBadness args e = some (sc
      - (if args.ignore_oom_score_adj ∧ 0 < e.oom_score_adj.getD 0
         then e.oom_score_adj.getD 0 else 0)
      + (if args.prefer_regex ∧ e.prefer_match then BADNESS_PREFER else 0)
      + (if args.avoid_regex ∧ e.avoid_match then BADNESS_AVOID else 0)
      + (if args.avoid_users ∧ e.user_match then BADNESS_AVOID_USER else 0)
      + (if args.prefer_old ∧ e.prefer_old_match
         then ((e.rtime / BADNESS_AGE_DIV : Nat) : Int) else 0)) := by
  have huser : ∀ b : Int, avoidUsersStep args e b =
      some (b + if args.avoid_users ∧ e.user_match then BADNESS_AVOID_USER else 0) := by
    intro b
    rcases hau : args.avoid_users with _ | _
    · simp [avoidUsersStep, hau]
    · obtain ⟨hst, hpw⟩ := h5 hau
      rcases hm : e.user_match with _ | _ <;> simp [avoidUsersStep, hau, hst, hpw, hm]
  have hadj : adjStep args e sc =
      some (sc - if args.ignore_oom_score_adj ∧ 0 < e.oom_score_adj.getD 0
                 then e.oom_score_adj.getD 0 else 0) := by
    rcases hio : args.ignore_oom_score_adj with _ | _
    · simp [adjStep, hio]
    · obtain ⟨adj, hv⟩ := Option.isSome_iff_exists.mp (h2 hio)
      by_cases h0 : (0 : Int) < adj <;> simp [adjStep, hio, hv, h0]
  have hage : (if args.prefer_old ∧ e.prefer_old_match ∧ e.ptimes_valid
               then ((e.rtime / BADNESS_AGE_DIV : Nat) : Int) else 0)
            = (if args.prefer_old ∧ e.prefer_old_match
               then ((e.rtime / BADNESS_AGE_DIV : Nat) : Int) else 0) := by
    rcases hpo : args.prefer_old with _ | _
    · simp [hpo]
    · simp [hpo, h4 hpo]
  have hreg : ∀ b : Int, regexUserSteps args e b =
      some (b + (if args.prefer_regex ∧ e.prefer_match then BADNESS_PREFER else 0)
              + (if args.avoid_regex ∧ e.avoid_match then BADNESS_AVOID else 0)
              + (if args.avoid_users ∧ e.user_match then BADNESS_AVOID_USER else 0)
              + (if args.prefer_old ∧ e.prefer_old_match
                 then ((e.rtime / BADNESS_AGE_DIV : Nat) : Int) else 0)) := by
    intro b
    by_cases hf : (args.prefer_regex = true ∨ args.avoid_regex = true ∨ args.prefer_old = true)
    · have hc := h3 hf
      rw [regexUserSteps.eq_def, if_pos hf, if_neg (by simp [hc]), huser, hage]
      congr 1
      ring
    · simp only [not_or] at hf
      obtain ⟨hp, ha, ho⟩ := hf
      simp [regexUserSteps, huser, hp, ha, ho]
  simp only [computeBadness, h1, hadj, hreg]

/-- C4 witness entry: every read succeeds; prefer, avoid and prefer_old all
match; runtime 1250 seconds gives an age bonus of 1250 / 600 = 2. -/
def c4Entry : ProcEntry :=
  { pid := 42, oom_score := some 500, oom_score_adj := some 100,
    ptimes_valid := true, rtime := 1250, comm_ok := true,
    prefer_match := true, avoid_match := true, prefer_old_match := true,
    stat_ok := true, pw_ok := true, user_match := true,
    rss := some 9999, uid := some 0 }

/-- C4 witness arguments: all adjustment features enabled. -/
def c4Args : PollLoopArgs :=
  { c1Args with
    ignore_oom_score_adj := true
    prefer_regex := true
    avoid_regex := true
    avoid_users := true
    prefer_old := true }

/-- C4 witness: the badness formula evaluated at a concrete fully-readable
candidate: 500 - 100 + 300 - 300 - 150 + 2 = 252. -/
theorem C4_badness_formula_witness :
    computeBadness c4Args c4Entry = some 252 := by
  have h := C4_badness_formula c4Args c4Entry 500 rfl
    (fun _ => by decide) (fun _ => by decide) (fun _ => by decide) (fun _ => by decide)
  rw [h]
  decide

/-- One 100 ms tick of the polling loop in `kill_wait` (kill.c lines 93-118):
the memory snapshot `parse_meminfo` would return at this tick, whether
`is_alive(pid)` holds at this tick, and whether a `kill` syscall issued at
this tick would succeed. -/
structure KWTick where
  mem : Meminfo
  alive : Bool
  killOk : Bool
deriving DecidableEq

/-- Result of `kill_wait`: `dryrunSkip` is the early return 0 under `--dryrun`;
`noWait` is the return 0 for the signal-0 self-test; `exited t` is the return 0
when `is_alive` first fails at tick `t`; `timeout` is the `ETIME` failure after
100 ticks; `sigfail` is an error return from the `kill` syscall itself. -/
inductive KWRes where
  | dryrunSkip
  | noWait
  | exited (tick : Nat)
  | timeout
  | sigfail
deriving DecidableEq

/-- Observable outcome of one `kill_wait` call: its return value, the tick at
which it escalated to SIGKILL (if it did), and the signals it delivered as
`(pid, signal)` events in order. -/
structure KWOut where
  res : KWRes
  escTick : Option Nat
  events : List (Int × Int)
deriving DecidableEq

/-- The memory condition that escalates a SIGTERM wait to SIGKILL
(kill.c line 100, second disjunct). -/
def memKillCond (args : PollLoopArgs) (m : Meminfo) : Prop :=
  m.MemAvailablePercent ≤ args.mem_kill_percent ∧ m.SwapFreePercent ≤ args.swap_kill_percent

instance (args : PollLoopArgs) (m : Meminfo) : Decidable (memKillCond args m) := by
  unfold memKillCond
  infer_instance

/-- The `for (i = 0; i < 100; i++)` polling loop of `kill_wait`
(kill.c lines 93-118), at loop index `i` with `escalated` recording whether
`sig` is already SIGKILL. Per tick, in source order: if not yet on SIGKILL,
re-read the memory snapshot and escalate when `secs >= 6.0` — which for
`secs = (float)(i*100)/1000` is exactly `60 ≤ i`, all these floats being
exact — or when the fresh snapshot is at or below both kill limits (a failing
escalation `kill` syscall is returned as an error); then return success if
`is_alive(pid)` is false; otherwise sleep 100 ms and continue. An exhausted
tick list is the `errno = ETIME` timeout after 100 ticks. -/
def kill_wait_go (args : PollLoopArgs) (pid : Int) : Nat → Bool → List KWTick → KWOut
  | _, _, [] => ⟨.timeout, none, []⟩
  | i, escalated, t :: rest =>
    if ¬ escalated ∧ (60 ≤ i ∨ memKillCond args t.mem) then
      if ¬ t.killOk then ⟨.sigfail, none, []⟩
      else if ¬ t.alive then ⟨.exited i, some i, [(pid, SIGKILL)]⟩
      else
        let o := kill_wait_go args pid (i + 1) true rest
        ⟨o.res, some i, (pid, SIGKILL) :: o.events⟩
    else
      if ¬ t.alive then ⟨.exited i, none, []⟩
      else kill_wait_go args pid (i + 1) escalated rest

/-- The function `kill_wait` (kill.c lines 77-121): under `--dryrun` with a
real signal nothing is sent and 0 is returned; otherwise the initial signal is
sent (`initOk` tells whether that syscall succeeds); signal 0 returns without
waiting; any other signal enters the 100-tick polling loop, starting already
escalated iff the initial signal is SIGKILL. `ticks` describes the world at
ticks 0, 1, …; the loop consumes at most the first 100 of them. -/
def kill_wait (args : PollLoopArgs) (pid : Int) (sig : Int) (initOk : Bool)
    (ticks : List KWTick) : KWOut :=
  if args.dryrun ∧ sig ≠ 0 then ⟨.dryrunSkip, none, []⟩
  else if ¬ initOk then ⟨.sigfail, none, []⟩
  else if sig = 0 then ⟨.noWait, none, [(pid, 0)]⟩
  else
    let o := kill_wait_go args pid 0 (decide (sig = SIGKILL)) (ticks.take 100)
    ⟨o.res, o.escTick, (pid, sig) :: o.events⟩


/-- Relative index of the first tick (counting from absolute index `i`) at
which the escalation condition of `kill_wait` holds; the list length if none
holds. -/
def firstEscNum (args : PollLoopArgs) : Nat → List KWTick → Nat
  | _, [] => 0
  | i, t :: rest =>
    if 60 ≤ i ∨ memKillCond args t.mem then 0 else firstEscNum args (i + 1) rest + 1

/-- Relative index of the first tick at which the process is observed dead;
the list length if it stays alive throughout. -/
def firstDeadNum : List KWTick → Nat
  | [] => 0
  | t :: rest => if t.alive then firstDeadNum rest + 1 else 0

/-- The escalation tick comes no later than relative index `60 - i` when the
list is long enough, because `60 ≤ i` alone triggers escalation. -/
theorem firstEscNum_le (args : PollLoopArgs) :
    ∀ (rest : List KWTick) (i : Nat), 60 - i ≤ rest.length →
      firstEscNum args i rest ≤ 60 - i := by
  intro rest
  induction rest with
  | nil =>
    intro i h
    simp [firstEscNum]
  | cons t rest ih =>
    intro i h
    by_cases hc : (60 ≤ i ∨ memKillCond args t.mem)
    · simp [firstEscNum, hc]
    · have hi : i < 60 := by
        rcases Nat.lt_or_ge i 60 with h1 | h1
        · exact h1
        · exact absurd (Or.inl h1) hc
      have hr := ih (i + 1) (by simp only [List.length_cons] at h; omega)
      simp only [firstEscNum, if_neg hc]
      omega

/-- Once escalated, the polling loop of `kill_wait` only watches `is_alive`:
it exits with success at the first dead tick and times out otherwise, sending
nothing further. -/
theorem kill_wait_go_esc (args : PollLoopArgs) (pid : Int) :
    ∀ (rest : List KWTick) (i : Nat),
      kill_wait_go args pid i true rest =
        ⟨if firstDeadNum rest < rest.length
          then .exited (i + firstDeadNum rest) else .timeout, none, []⟩ := by
  intro rest
  induction rest with
  | nil =>
    intro i
    simp [kill_wait_go, firstDeadNum]
  | cons t rest ih =>
    intro i
    rcases ha : t.alive with _ | _
    · simp [kill_wait_go, firstDeadNum, ha]
    · have hstep : kill_wait_go args pid i true (t :: rest) =
          kill_wait_go args pid (i + 1) true rest := by
        simp [kill_wait_go, ha]
      rw [hstep, ih (i + 1)]
      have hfd : firstDeadNum (t :: rest) = firstDeadNum rest + 1 := by
        simp [firstDeadNum, ha]
      rw [hfd]
      by_cases hd : firstDeadNum rest < rest.length
      · rw [if_pos hd,
          if_pos (show firstDeadNum rest + 1 < (t :: rest).length by
            simp only [List.length_cons]; omega)]
        have harith : i + 1 + firstDeadNum rest = i + (firstDeadNum rest + 1) := by omega
        rw [harith]
      · rw [if_neg hd,
          if_neg (show ¬ (firstDeadNum rest + 1 < (t :: rest).length) by
            simp only [List.length_cons]; omega)]

/-- Characterisation of the not-yet-escalated polling loop of `kill_wait`:
with every `kill` syscall succeeding, the loop escalates exactly at the first
reached tick satisfying the escalation condition, sends exactly one SIGKILL
when it does, exits with success at the first dead tick and times out when
the tick list is exhausted. -/
theorem kill_wait_go_spec (args : PollLoopArgs) (pid : Int) :
    ∀ (rest : List KWTick) (i : Nat), (∀ t ∈ rest, t.killOk = true) →
      kill_wait_go args pid i false rest =
        (if firstEscNum args i rest < rest.length ∧
            firstEscNum args i rest ≤ firstDeadNum rest then
          ⟨if firstDeadNum rest < rest.length
            then .exited (i + firstDeadNum rest) else .timeout,
           some (i + firstEscNum args i rest), [(pid, SIGKILL)]⟩
        else
          ⟨if firstDeadNum rest < rest.length
            then .exited (i + firstDeadNum rest) else .timeout,
           none, []⟩) := by
  intro rest
  induction rest with
  | nil =>
    intro i h
    simp [kill_wait_go, firstEscNum, firstDeadNum]
  | cons t rest ih =>
    intro i h
    have hkt : t.killOk = true := h t (by simp)
    have hkr : ∀ u ∈ rest, u.killOk = true := fun u hu => h u (by simp [hu])
    by_cases hc : (60 ≤ i ∨ memKillCond args t.mem)
    · have her : firstEscNum args i (t :: rest) = 0 := by simp [firstEscNum, hc]
      rcases ha : t.alive with _ | _
      · -- escalation fires and the process is already dead at this tick
        have hfd : firstDeadNum (t :: rest) = 0 := by simp [firstDeadNum, ha]
        have hstep : kill_wait_go args pid i false (t :: rest) =
            ⟨.exited i, some i, [(pid, SIGKILL)]⟩ := by
          simp [kill_wait_go, hc, hkt, ha]
        rw [hstep, her, hfd]
        simp only [List.length_cons]
        split_ifs <;> simp_all
      · -- escalation fires, process alive: continue escalated
        have hfd : firstDeadNum (t :: rest) = firstDeadNum rest + 1 := by
          simp [firstDeadNum, ha]
        have hstep : kill_wait_go args pid i false (t :: rest) =
            ⟨(kill_wait_go args pid (i + 1) true rest).res, some i,
             (pid, SIGKILL) :: (kill_wait_go args pid (i + 1) true rest).events⟩ := by
          simp [kill_wait_go, hc, hkt, ha]
        rw [hstep, kill_wait_go_esc args pid rest (i + 1), her, hfd]
        simp only [List.length_cons]
        split_ifs <;> simp_all <;> omega
    · have her : firstEscNum args i (t :: rest) = firstEscNum args (i + 1) rest + 1 := by
        simp [firstEscNum, hc]
      rcases ha : t.alive with _ | _
      · -- no escalation, dead at this tick
        have hfd : firstDeadNum (t :: rest) = 0 := by simp [firstDeadNum, ha]
        have hstep : kill_wait_go args pid i false (t :: rest) =
            ⟨.exited i, none, []⟩ := by
          simp [kill_wait_go, hc, ha]
        rw [hstep, her, hfd]
        simp only [List.length_cons]
        split_ifs <;> simp_all
      · -- no escalation, alive: recurse un-escalated
        have hfd : firstDeadNum (t :: rest) = firstDeadNum rest + 1 := by
          simp [firstDeadNum, ha]
        have hstep : kill_wait_go args pid i false (t :: rest) =
            kill_wait_go args pid (i + 1) false rest := by
          simp [kill_wait_go, hc, ha]
        rw [hstep, ih (i + 1) hkr, her, hfd]
        simp only [List.length_cons]
        have e1 : (firstEscNum args (i + 1) rest + 1 < rest.length + 1 ∧
                   firstEscNum args (i + 1) rest + 1 ≤ firstDeadNum rest + 1) =
                  (firstEscNum args (i + 1) rest < rest.length ∧
                   firstEscNum args (i + 1) rest ≤ firstDeadNum rest) := propext (by omega)
        have e2 : (firstDeadNum rest + 1 < rest.length + 1) =
                  (firstDeadNum rest < rest.length) := propext (by omega)
        have e3 : i + (firstDeadNum rest + 1) = i + 1 + firstDeadNum rest := by omega
        have e4 : i + (firstEscNum args (i + 1) rest + 1) =
                  i + 1 + firstEscNum args (i + 1) rest := by omega
        simp only [e1, e2, e3, e4]

/-- C3: for every `kill_wait` call with initial signal SIGTERM (dryrun off,
every `kill` syscall succeeding) over its 100-tick schedule: the signal is
escalated to SIGKILL — sent exactly once — at the first 100 ms tick at which
at least 6.0 seconds have elapsed since the SIGTERM (tick 60) or the freshly
read snapshot is at or below both `mem_kill_percent` and `swap_kill_percent`,
provided the process was still alive at every earlier tick; the call returns
success at the first tick at which the process is no longer alive; and it
fails with the `ETIME` timeout if the process is still alive at all 100 ticks
(kill.c lines 93-120). -/
theorem C3_kill_wait_sigterm (args : PollLoopArgs) (pid : Int) (ticks : List KWTick)
    (hlen : ticks.length = 100)
    (hko : ∀ t ∈ ticks, t.killOk = true)
    (hdry : args.dryrun = false) :
    kill_wait args pid SIGTERM true ticks =
      ⟨if firstDeadNum ticks < 100 then .exited (firstDeadNum ticks) else .timeout,
       if firstEscNum args 0 ticks ≤ firstDeadNum ticks
         then some (firstEscNum args 0 ticks) else none,
       (pid, SIGTERM) ::
         (if firstEscNum args 0 ticks ≤ firstDeadNum ticks
          then [(pid, SIGKILL)] else [])⟩ := by
  have htake : ticks.take 100 = ticks := List.take_of_length_le (by omega)
  have he : firstEscNum args 0 ticks ≤ 60 := by
    simpa using firstEscNum_le args ticks 0 (by omega)
  have hd0 : (decide (SIGTERM = SIGKILL)) = false := by decide
  simp only [kill_wait]
  rw [if_neg (by simp [hdry]), if_neg (by simp), if_neg (by decide), hd0, htake,
    kill_wait_go_spec args pid ticks 0 hko]
  by_cases hed : firstEscNum args 0 ticks ≤ firstDeadNum ticks
  · rw [if_pos ⟨by omega, hed⟩]
    simp only [Nat.zero_add, if_pos hed, hlen]
  · rw [if_neg (fun hC => hed hC.2)]
    simp only [Nat.zero_add, if_neg hed, hlen]

/-- C3 witness tick with no memory pressure and the victim alive. -/
def c3TickCalm : KWTick := ⟨⟨60, 80, 1000, 1000⟩, true, true⟩

/-- C3 witness tick at which the snapshot is below both kill limits. -/
def c3TickLow : KWTick := ⟨⟨4, 3, 1000, 1000⟩, true, true⟩

/-- C3 witness tick at which the victim is observed dead. -/
def c3TickDead : KWTick := ⟨⟨60, 80, 1000, 1000⟩, false, true⟩

/-- C3 witness schedule: pressure appears at tick 3, the victim dies at
tick 5. -/
def c3Ticks : List KWTick :=
  [c3TickCalm, c3TickCalm, c3TickCalm, c3TickLow, c3TickCalm, c3TickDead] ++
    List.replicate 94 c3TickCalm

/-- C3 witness: on the concrete schedule the SIGTERM wait escalates exactly at
tick 3 (the first tick below both kill limits), sends exactly one SIGKILL, and
returns success at tick 5, the first dead tick. -/
theorem C3_kill_wait_sigterm_witness :
    kill_wait c1Args 77 SIGTERM true c3Ticks =
      ⟨.exited 5, some 3, [(77, SIGTERM), (77, SIGKILL)]⟩ := by
  have h := C3_kill_wait_sigterm c1Args 77 c3Ticks (by decide) (by decide) rfl
  rw [h]
  decide

/-- Signal delivery of `kill_largest_process` (kill.c lines 126-380): select
the victim by the scan; discard it when the scan counted at most one candidate
and the victim is the daemon itself (the hidepid check of lines 313-317); when
no victim remains (pid ≤ 0) nothing is sent and the function sleeps one second
(lines 319-326); otherwise the victim is signalled through `kill_wait`.
Returns the delivered signal events. -/
def kill_largest_process (args : PollLoopArgs) (entries : List ProcEntry)
    (sig : Int) (kwInitOk : Bool) (kwTicks : List KWTick) : List (Int × Int) :=
  let victim0 := kill_select args entries
  let victim := if countCandidates args entries ≤ 1 ∧ victim0.pid = args.selfPid
                then { victim0 with pid := 0 } else victim0
  if victim.pid ≤ 0 then []
  else (kill_wait args victim.pid sig kwInitOk kwTicks).events

/-- One `/proc` entry as observed by the scan inside `kill_emergency`: its pid
and the outcome of `get_comm` (`none` = failing read, skipped silently). -/
structure EProc where
  pid : Int
  comm : Option String
deriving DecidableEq

/-- The world one name-iteration of `kill_emergency` observes: the fresh
`parse_meminfo` snapshot read before the name is processed, and the `/proc`
table scanned for it. -/
structure EmergStep where
  mem : Meminfo
  procs : List EProc
deriving DecidableEq

/-- The SIGKILL events one name-iteration of `kill_emergency` sends
(kill.c lines 417-456): every scanned entry with pid > 1 whose `comm` reads
back byte-equal (strcmp) to the name; failing reads and pid ≤ 1 are skipped. -/
def emergKillsFor (n : String) (procs : List EProc) : List (Int × Int) :=
  procs.filterMap
    (fun p => if 1 < p.pid ∧ p.comm = some n then some (p.pid, SIGKILL) else none)

/-- The function `kill_emergency` (kill.c lines 382-462): process the
configured emergency names strictly in list order; before each name re-read
the memory snapshot and stop immediately once `MemAvailablePercent` exceeds
`mem_high_percent`; for each remaining name scan `/proc` once and send
SIGKILL, without waiting, to every matching pid, counting the kills. Returns
the total kill count and the delivered events; `steps` holds the world of each
name iteration. -/
def kill_emergency (args : PollLoopArgs) :
    List String → List EmergStep → Nat × List (Int × Int)
  | [], _ => (0, [])
  | _ :: _, [] => (0, [])
  | n :: ns, w :: ws =>
    if args.mem_high_percent < w.mem.MemAvailablePercent then (0, [])
    else
      let evs := emergKillsFor n w.procs
      let r := kill_emergency args ns ws
      (evs.length + r.1, evs ++ r.2)

/-- C5: `kill_emergency` processes the configured names strictly in list
order, gated per name by the freshly re-read snapshot: exactly the longest
prefix of names whose snapshot satisfies `MemAvailablePercent ≤
mem_high_percent` is processed; for each processed name it SIGKILLs, without
waiting, every pid > 1 whose comm is byte-exactly the name (per-PID read
failures skipped silently); and it returns the total number of kills
performed, which equals the number of delivered events. -/
theorem C5_kill_emergency_spec (args : PollLoopArgs) (names : List String)
    (steps : List EmergStep) (h : names.length ≤ steps.length) :
    kill_emergency args names steps =
      (let procd := (names.zip steps).takeWhile
          (fun p => decide (p.2.mem.MemAvailablePercent ≤ args.mem_high_percent))
       ((procd.map (fun p => (emergKillsFor p.1 p.2.procs).length)).sum,
        (procd.map (fun p => emergKillsFor p.1 p.2.procs)).flatten)) := by
  induction names generalizing steps with
  | nil => simp [kill_emergency]
  | cons n ns ih =>
    cases steps with
    | nil => simp at h
    | cons w ws =>
      by_cases hm : args.mem_high_percent < w.mem.MemAvailablePercent
      · have hnot : ¬ w.mem.MemAvailablePercent ≤ args.mem_high_percent := not_le.mpr hm
        simp [kill_emergency, hm, List.zip_cons_cons, List.takeWhile_cons, hnot]
      · have hle : w.mem.MemAvailablePercent ≤ args.mem_high_percent := not_lt.mp hm
        have hlen : ns.length ≤ ws.length := by simp at h; omega
        simp [kill_emergency, hm, List.zip_cons_cons, List.takeWhile_cons, hle,
          ih ws hlen]

/-- C5 witness name-iteration worlds: two names processed, the third gated by
a recovered snapshot. -/
def c5Steps : List EmergStep :=
  [⟨⟨10, 50, 100, 100⟩, [⟨2, some "a"⟩, ⟨3, some "x"⟩, ⟨1, some "a"⟩, ⟨6, none⟩]⟩,
   ⟨⟨12, 50, 100, 100⟩, [⟨5, some "b"⟩, ⟨6, some "b"⟩]⟩,
   ⟨⟨20, 50, 100, 100⟩, [⟨7, some "c"⟩]⟩]

/-- C5 witness: names "a" and "b" are processed (snapshots 10 and 12 are at or
below the high watermark 15), name "c" is not (snapshot 20 exceeds it); pid 1
and the failing comm read are skipped; 3 kills are performed and returned. -/
theorem C5_kill_emergency_spec_witness :
    kill_emergency c1Args ["a", "b", "c"] c5Steps =
      (3, [(2, SIGKILL), (5, SIGKILL), (6, SIGKILL)]) := by
  have h := C5_kill_emergency_spec c1Args ["a", "b", "c"] c5Steps (by decide)
  rw [h]
  decide

/-- The clamp of the adaptive sleep computation (main.c lines 403-410):
`ms = headroom_mem_kib / 6000 + headroom_swap_kib / 800` (integer division by
the fill rates of line 389-390), then clamped into `[100, 1000]`. -/
def sleepFromHeadrooms (hm hs : Nat) : Nat :=
  let ms := hm / 6000 + hs / 800
  if ms < 100 then 100 else if 1000 < ms then 1000 else ms

/-- `mem_headroom_kib` of `sleep_time_ms` (main.c lines 395-398), already
clamped at 0: the C code casts the double product to `long long` (truncation
toward zero) and then floors negatives to 0; under that floor-at-0, truncation
toward zero and `Int.floor` agree, so the composite is modelled in one step. -/
def mem_headroom_kib (args : PollLoopArgs) (m : Meminfo) : Nat :=
  (max 0 ⌊(m.MemAvailablePercent - args.mem_term_percent) * 10 * (m.MemTotalMiB : Rat)⌋).toNat

/-- `swap_headroom_kib` of `sleep_time_ms` (main.c lines 399-402), clamped at
0 exactly as `mem_headroom_kib`. -/
def swap_headroom_kib (args : PollLoopArgs) (m : Meminfo) : Nat :=
  (max 0 ⌊(m.SwapFreePercent - args.swap_term_percent) * 10 * (m.SwapTotalMiB : Rat)⌋).toNat

/-- The function `sleep_time_ms` (main.c lines 386-411). -/
def sleep_time_ms (args : PollLoopArgs) (m : Meminfo) : Nat :=
  sleepFromHeadrooms (mem_headroom_kib args m) (swap_headroom_kib args m)

/-- C9: every invocation of the adaptive sleep computation returns a value in
`[100, 1000]`; the value is the clamp of `headroom_mem_kib / 6000 +
headroom_swap_kib / 800` with both headrooms floored at 0; and the computation
is monotone non-decreasing in each of the two headroom values. -/
theorem C9_sleep_time_ms (args : PollLoopArgs) (m : Meminfo) (hm hm2 hs hs2 : Nat)
    (h1 : hm ≤ hm2) (h2 : hs ≤ hs2) :
    (100 ≤ sleep_time_ms args m ∧ sleep_time_ms args m ≤ 1000) ∧
    sleep_time_ms args m =
      sleepFromHeadrooms (mem_headroom_kib args m) (swap_headroom_kib args m) ∧
    sleepFromHeadrooms hm hs ≤ sleepFromHeadrooms hm2 hs ∧
    sleepFromHeadrooms hm hs ≤ sleepFromHeadrooms hm hs2 := by
  have key : ∀ x y : Nat, x ≤ y →
      (if x < 100 then 100 else if 1000 < x then 1000 else x) ≤
        (if y < 100 then 100 else if 1000 < y then 1000 else y) := by
    intro x y h
    split_ifs <;> omega
  refine ⟨?_, rfl, ?_, ?_⟩
  · simp only [sleep_time_ms, sleepFromHeadrooms]
    split_ifs <;> omega
  · exact key _ _ (Nat.add_le_add (Nat.div_le_div_right h1) le_rfl)
  · exact key _ _ (Nat.add_le_add le_rfl (Nat.div_le_div_right h2))

/-- C9 witness: the theorem instantiated at a concrete snapshot and concrete
ordered headroom pairs. -/
theorem C9_sleep_time_ms_witness :
    (100 ≤ sleep_time_ms c1Args ⟨60, 80, 16000, 8000⟩ ∧
      sleep_time_ms c1Args ⟨60, 80, 16000, 8000⟩ ≤ 1000) ∧
    sleep_time_ms c1Args ⟨60, 80, 16000, 8000⟩ =
      sleepFromHeadrooms (mem_headroom_kib c1Args ⟨60, 80, 16000, 8000⟩)
        (swap_headroom_kib c1Args ⟨60, 80, 16000, 8000⟩) ∧
    sleepFromHeadrooms 300000 7000 ≤ sleepFromHeadrooms 1300000 7000 ∧
    sleepFromHeadrooms 300000 7000 ≤ sleepFromHeadrooms 300000 9000 :=
  C9_sleep_time_ms c1Args ⟨60, 80, 16000, 8000⟩ 300000 1300000 7000 9000
    (by decide) (by decide)

/-- Outcome of the decision phase of one poll-loop iteration
(main.c lines 459-494): the chosen signal, the `emergency_invoked` and `high`
flags, and the values the iteration's decision leaves in `hystis` and
`current_setpoint`. -/
structure DecideOut where
  sig : Int
  emergency_invoked : Bool
  high : Bool
  hystis : Int
  setpoint : Rat
deriving DecidableEq

/-- The decision phase of one `poll_loop` iteration (main.c lines 459-494),
first match wins: emergency (`emerg_kill` configured, cooldown expired, at or
below the emergency and swap-kill limits), then kill, then term, then
hysteresis — which either keeps killing with the stored signal below the high
watermark or clears the stored signal — else no signal. -/
def loop_decide (args : PollLoopArgs) (m : Meminfo) (hystis : Int)
    (etimeout : Int) (setpoint : Rat) : DecideOut :=
  if args.emerg_kill.isSome ∧ etimeout ≤ 0 ∧
      m.MemAvailablePercent ≤ args.mem_emerg_percent ∧
      m.SwapFreePercent ≤ args.swap_kill_percent then
    ⟨SIGKILL, true, false, hystis, args.mem_emerg_percent⟩
  else if m.MemAvailablePercent ≤ args.mem_kill_percent ∧
      m.SwapFreePercent ≤ args.swap_kill_percent then
    ⟨SIGKILL, false, false, hystis, args.mem_kill_percent⟩
  else if m.MemAvailablePercent ≤ args.mem_term_percent ∧
      m.SwapFreePercent ≤ args.swap_term_percent then
    ⟨SIGTERM, false, false, hystis, args.mem_term_percent⟩
  else if 0 < hystis then
    if m.MemAvailablePercent ≤ args.mem_high_percent then
      ⟨hystis, false, true, hystis, args.mem_high_percent⟩
    else ⟨0, false, false, 0, 0⟩
  else ⟨0, false, false, hystis, setpoint⟩

/-- The state `poll_loop` carries across iterations (main.c lines 449-456):
`sleep_ms` is `none` while the C variable `unsigned int sleep_ms` is still
uninitialised. -/
structure LoopState where
  sleep_ms : Option Nat
  report_countdown_ms : Int
  hystis : Int
  emergency_timeout_ms : Int
  current_setpoint : Rat
deriving DecidableEq

/-- `poll_loop`'s local state at entry (main.c lines 449-456): `sleep_ms` is
declared without an initialiser, the countdowns start at 0. -/
def initialLoopState : LoopState := ⟨none, 0, 0, 0, 0⟩

/-- Everything one poll-loop iteration observes from the outside world: the
`parse_meminfo` snapshot, the `/proc` table a victim scan would see, the
initial-kill success and tick schedule a `kill_wait` call would see, the
per-name worlds a `kill_emergency` call would see, and the value the
uninitialised `sleep_ms` happens to hold if it is read before first
assignment. -/
structure LoopWorld where
  mem : Meminfo
  scanEntries : List ProcEntry
  kwInitOk : Bool
  kwTicks : List KWTick
  emergSteps : List EmergStep
  uninitSleep : Nat
deriving DecidableEq

/-- Observable outcome of one poll-loop iteration: chosen signal, whether the
emergency path ran, the `high` status flag, the delivered signal events, the
value of `sleep_ms` at the `usleep` call (`none` = still uninitialised), the
actual slept duration, and the emergency kill count. -/
structure IterOut where
  sig : Int
  emergencyFired : Bool
  high : Bool
  events : List (Int × Int)
  slept : Option Nat
  sleptActual : Nat
  kills : Nat
deriving DecidableEq

/-- Default `IterOut` used with `List.getD`. -/
def dIterOut : IterOut := ⟨0, false, false, [], none, 0, 0⟩

/-- Intermediate values of the action phase of one iteration. -/
structure ActionOut where
  sleep1 : Option Nat
  hystis1 : Int
  etimeout1 : Int
  countdown1 : Int
  events : List (Int × Int)
  kills : Nat
  emergFired : Bool
deriving DecidableEq

/-- The action phase of one `poll_loop` iteration (main.c lines 499-514):
on a signal, either the emergency path (`kill_emergency`, sleep 2000 ms, arm
the 30000 ms cooldown) or the kill path (`kill_largest_process`, sleep 50 ms
when the *stored* hysteresis signal equals SIGKILL, else 500 ms), recording
`hystis = sig`; with no signal, the periodic-report branch resets the
countdown and computes the adaptive sleep; otherwise nothing is touched. -/
def pollAction (args : PollLoopArgs) (st : LoopState) (w : LoopWorld)
    (d : DecideOut) : ActionOut :=
  if d.sig ≠ 0 then
    if d.emergency_invoked then
      let ke := kill_emergency args (args.emerg_kill.getD []) w.emergSteps
      ⟨some 2000, d.sig, EMERGENCY_TIMEOUT, st.report_countdown_ms, ke.2, ke.1, true⟩
    else
      let evs := kill_largest_process args w.scanEntries d.sig w.kwInitOk w.kwTicks
      ⟨some (if d.hystis = SIGKILL then (50 : Nat) else 500), d.sig,
       st.emergency_timeout_ms, st.report_countdown_ms, evs, 0, false⟩
  else if args.report_interval_ms ≠ 0 ∧ st.report_countdown_ms ≤ 0 then
    ⟨some (sleep_time_ms args w.mem), d.hystis, st.emergency_timeout_ms,
     args.report_interval_ms, [], 0, false⟩
  else
    ⟨st.sleep_ms, d.hystis, st.emergency_timeout_ms, st.report_countdown_ms, [], 0, false⟩

/-- One full iteration of `poll_loop` (main.c lines 458-521): decision phase,
status write (no state effect), action phase, then the `usleep` and the two
countdown decrements — `report_countdown_ms -= sleep_ms` unconditionally and
`emergency_timeout_ms -= sleep_ms` only while positive. Reading `sleep_ms`
before its first assignment yields the arbitrary value `w.uninitSleep`. -/
def pollIteration (args : PollLoopArgs) (st : LoopState) (w : LoopWorld) :
    LoopState × IterOut :=
  let d := loop_decide args w.mem st.hystis st.emergency_timeout_ms st.current_setpoint
  let a := pollAction args st w d
  let slept := a.sleep1.getD w.uninitSleep
  (⟨a.sleep1, a.countdown1 - (slept : Int), a.hystis1,
    if 0 < a.etimeout1 then a.etimeout1 - (slept : Int) else a.etimeout1, d.setpoint⟩,
   ⟨d.sig, a.emergFired, d.high, a.events, a.sleep1, slept, a.kills⟩)

/-- The per-iteration outputs of running `poll_loop` from state `st` through
the worlds `ws`. -/
def loopOuts (args : PollLoopArgs) : LoopState → List LoopWorld → List IterOut
  | _, [] => []
  | st, w :: ws => (pollIteration args st w).2 :: loopOuts args (pollIteration args st w).1 ws

/-- The loop state after running `poll_loop` from `st` through the worlds
`ws`. -/
def stateAfterRun (args : PollLoopArgs) : LoopState → List LoopWorld → LoopState
  | st, [] => st
  | st, w :: ws => stateAfterRun args (pollIteration args st w).1 ws

/-- Decision rule as the specification states it (first match in fixed
priority order): emergency — emergency list configured AND emergency cooldown
≤ 0 AND mem ≤ emerg AND swap ≤ swap-kill — giving SIGKILL and the emergency
flag; then kill; then term; then hysteresis — hysteresis signal set (≠ none)
AND mem ≤ high reuses the stored signal and marks high, otherwise the
hysteresis signal is cleared; else no signal. -/
def decideSpec (args : PollLoopArgs) (m : Meminfo) (hystis : Int)
    (cooldown : Int) (setpoint : Rat) : DecideOut :=
  if args.emerg_kill.isSome ∧ cooldown ≤ 0 ∧
      m.MemAvailablePercent ≤ args.mem_emerg_percent ∧
      m.SwapFreePercent ≤ args.swap_kill_percent then
    ⟨SIGKILL, true, false, hystis, args.mem_emerg_percent⟩
  else if m.MemAvailablePercent ≤ args.mem_kill_percent ∧
      m.SwapFreePercent ≤ args.swap_kill_percent then
    ⟨SIGKILL, false, false, hystis, args.mem_kill_percent⟩
  else if m.MemAvailablePercent ≤ args.mem_term_percent ∧
      m.SwapFreePercent ≤ args.swap_term_percent then
    ⟨SIGTERM, false, false, hystis, args.mem_term_percent⟩
  else if hystis ≠ 0 then
    if m.MemAvailablePercent ≤ args.mem_high_percent then
      ⟨hystis, false, true, hystis, args.mem_high_percent⟩
    else ⟨0, false, false, 0, 0⟩
  else ⟨0, false, false, hystis, setpoint⟩

/-- A decision with the emergency flag set chose SIGKILL. -/
theorem loop_decide_emerg_sig (args : PollLoopArgs) (m : Meminfo) (hystis : Int)
    (etimeout : Int) (setpoint : Rat)
    (h : (loop_decide args m hystis etimeout setpoint).emergency_invoked = true) :
    (loop_decide args m hystis etimeout setpoint).sig = SIGKILL := by
  unfold loop_decide at *
  split_ifs at h ⊢ <;> simp_all

/-- A decision with the emergency flag set saw an expired cooldown. -/
theorem loop_decide_emerg_cooldown (args : PollLoopArgs) (m : Meminfo)
    (hystis : Int) (etimeout : Int) (setpoint : Rat)
    (h : (loop_decide args m hystis etimeout setpoint).emergency_invoked = true) :
    etimeout ≤ 0 := by
  unfold loop_decide at h
  split_ifs at h with h1 h2 h3 h4 h5 <;> first
    | exact h1.2.1
    | simp_all

set_option maxRecDepth 4096 in
/-- C2: in every control-loop iteration (with the reachable-state invariant
that the stored hysteresis signal is never negative) the action is decided by
first match in the fixed priority order of the specification: emergency, then
kill, then term, then hysteresis (reuse below the high watermark, clear
otherwise), else no signal — and the iteration's chosen signal, high flag and
emergency flag are exactly those of that rule. -/
theorem C2_decision_priority (args : PollLoopArgs) (st : LoopState) (w : LoopWorld)
    (h : 0 ≤ st.hystis) :
    loop_decide args w.mem st.hystis st.emergency_timeout_ms st.current_setpoint =
      decideSpec args w.mem st.hystis st.emergency_timeout_ms st.current_setpoint ∧
    (pollIteration args st w).2.sig =
      (decideSpec args w.mem st.hystis st.emergency_timeout_ms st.current_setpoint).sig ∧
    (pollIteration args st w).2.high =
      (decideSpec args w.mem st.hystis st.emergency_timeout_ms st.current_setpoint).high ∧
    (pollIteration args st w).2.emergencyFired =
      (decideSpec args w.mem st.hystis st.emergency_timeout_ms
        st.current_setpoint).emergency_invoked := by
  have h3 : (0 < st.hystis) = (st.hystis ≠ 0) := propext (by omega)
  have hd : loop_decide args w.mem st.hystis st.emergency_timeout_ms st.current_setpoint =
      decideSpec args w.mem st.hystis st.emergency_timeout_ms st.current_setpoint := by
    simp only [loop_decide, decideSpec, h3]
  have e1 : (pollIteration args st w).2.sig =
      (loop_decide args w.mem st.hystis st.emergency_timeout_ms st.current_setpoint).sig := rfl
  have e2 : (pollIteration args st w).2.high =
      (loop_decide args w.mem st.hystis st.emergency_timeout_ms st.current_setpoint).high := rfl
  refine ⟨hd, by rw [e1, hd], by rw [e2, hd], ?_⟩
  by_cases hei : (loop_decide args w.mem st.hystis st.emergency_timeout_ms
      st.current_setpoint).emergency_invoked = true
  · have hsig := loop_decide_emerg_sig args w.mem st.hystis st.emergency_timeout_ms
      st.current_setpoint hei
    have hne : (loop_decide args w.mem st.hystis st.emergency_timeout_ms
        st.current_setpoint).sig ≠ 0 := by rw [hsig]; decide
    have e3 : (pollIteration args st w).2.emergencyFired = true := by
      simp [pollIteration, pollAction, hne, hei]
    rw [e3, ← hd, hei]
  · have hne' : (loop_decide args w.mem st.hystis st.emergency_timeout_ms
        st.current_setpoint).emergency_invoked = false := by simpa using hei
    have e3 : (pollIteration args st w).2.emergencyFired = false := by
      by_cases hs0 : (loop_decide args w.mem st.hystis st.emergency_timeout_ms
          st.current_setpoint).sig = 0
      · simp [pollIteration, pollAction, hs0]
        split_ifs <;> rfl
      · simp [pollIteration, pollAction, hs0, hne']
    rw [e3, ← hd, hne']

/-- C2 witness state: no hysteresis, cooldown expired. -/
def c2St : LoopState := ⟨some 500, 0, 0, 0, 0⟩

/-- C2 witness world: a snapshot at or below both kill limits. -/
def c2World : LoopWorld := ⟨⟨4, 3, 100, 100⟩, [], true, [], [], 0⟩

/-- C2 witness: the decision characterisation instantiated at a concrete
SIGKILL-triggering iteration. -/
theorem C2_decision_priority_witness :
    loop_decide c1Args c2World.mem c2St.hystis c2St.emergency_timeout_ms
        c2St.current_setpoint =
      decideSpec c1Args c2World.mem c2St.hystis c2St.emergency_timeout_ms
        c2St.current_setpoint ∧
    (pollIteration c1Args c2St c2World).2.sig =
      (decideSpec c1Args c2World.mem c2St.hystis c2St.emergency_timeout_ms
        c2St.current_setpoint).sig ∧
    (pollIteration c1Args c2St c2World).2.high =
      (decideSpec c1Args c2World.mem c2St.hystis c2St.emergency_timeout_ms
        c2St.current_setpoint).high ∧
    (pollIteration c1Args c2St c2World).2.emergencyFired =
      (decideSpec c1Args c2World.mem c2St.hystis c2St.emergency_timeout_ms
        c2St.current_setpoint).emergency_invoked :=
  C2_decision_priority c1Args c2St c2World (by decide)

/-- C8 counterexample state: no prior hysteresis (`hystis = 0`), `sleep_ms`
already initialised. -/
def c8St : LoopState := ⟨some 444, 0, 0, 0, 0⟩

/-- C8 counterexample world: a snapshot at or below both kill limits
(mem 4 %, swap 3 %). -/
def c8World : LoopWorld := ⟨⟨4, 3, 100, 100⟩, [], true, [], [], 0⟩

/-- C8 (counterexample): the claim says an iteration that triggers SIGKILL
directly from a state with no prior hysteresis sleeps 50 ms next. In the code
(main.c line 507) the 50/500 choice reads `hystis` *before* `hystis = sig`
(line 509), so this iteration chooses SIGKILL yet sets the sleep to 500 ms. -/
theorem C8_counterexample :
    c8St.hystis = 0 ∧
    (pollIteration c1Args c8St c8World).2.sig = SIGKILL ∧
    ¬ (pollIteration c1Args c8St c8World).2.emergencyFired = true ∧
    (pollIteration c1Args c8St c8World).1.sleep_ms = some 500 ∧
    (500 : Nat) ≠ 50 := by
  refine ⟨?_, ?_, ?_, ?_, ?_⟩ <;> decide

/-- C8 (amended): in every non-emergency kill iteration the sleep duration is
50 ms iff the stored hysteresis signal carried into the action phase — the
value from the *previous* iteration, read before `hystis = sig` — equals
SIGKILL, and 500 ms otherwise; in particular an iteration that triggers
SIGKILL directly from a state with no prior hysteresis sleeps 500 ms. -/
theorem C8_sleep_after_kill (args : PollLoopArgs) (st : LoopState) (w : LoopWorld)
    (hsig : (loop_decide args w.mem st.hystis st.emergency_timeout_ms
      st.current_setpoint).sig ≠ 0)
    (hem : (loop_decide args w.mem st.hystis st.emergency_timeout_ms
      st.current_setpoint).emergency_invoked = false) :
    (pollIteration args st w).1.sleep_ms =
      some (if (loop_decide args w.mem st.hystis st.emergency_timeout_ms
                 st.current_setpoint).hystis = SIGKILL
            then (50 : Nat) else 500) ∧
    (pollIteration args st w).2.slept =
      some (if (loop_decide args w.mem st.hystis st.emergency_timeout_ms
                 st.current_setpoint).hystis = SIGKILL
            then (50 : Nat) else 500) := by
  constructor <;> simp [pollIteration, pollAction, hsig, hem]

/-- C8 witness: the amended sleep rule instantiated at the concrete direct
SIGKILL iteration of the counterexample (stored hysteresis 0, so 500 ms). -/
theorem C8_sleep_after_kill_witness :
    (pollIteration c1Args c8St c8World).1.sleep_ms =
      some (if (loop_decide c1Args c8World.mem c8St.hystis c8St.emergency_timeout_ms
                 c8St.current_setpoint).hystis = SIGKILL
            then (50 : Nat) else 500) ∧
    (pollIteration c1Args c8St c8World).2.slept =
      some (if (loop_decide c1Args c8World.mem c8St.hystis c8St.emergency_timeout_ms
                 c8St.current_setpoint).hystis = SIGKILL
            then (50 : Nat) else 500) :=
  C8_sleep_after_kill c1Args c8St c8World (by decide) (by decide)

/-- C10: in every iteration where the decision chooses no signal and the
periodic-report branch is not taken (`report_interval_ms = 0` or a positive
countdown), `sleep_ms` is left exactly as the previous iteration set it — the
adaptive sleep computation is not consulted — the slept duration is that
carried value, and when `sleep_ms` is still unassigned (`none`, as in
`poll_loop`'s initial state) the duration actually slept is the arbitrary
value of the uninitialised C variable. -/
theorem C10_idle_sleep_frame (args : PollLoopArgs) (st : LoopState) (w : LoopWorld)
    (hsig : (loop_decide args w.mem st.hystis st.emergency_timeout_ms
      st.current_setpoint).sig = 0)
    (hrep : args.report_interval_ms = 0 ∨ 0 < st.report_countdown_ms) :
    (pollIteration args st w).1.sleep_ms = st.sleep_ms ∧
    (pollIteration args st w).2.slept = st.sleep_ms ∧
    (st.sleep_ms = none →
      (pollIteration args st w).2.sleptActual = w.uninitSleep) ∧
    initialLoopState.sleep_ms = none := by
  have hnr : ¬ (args.report_interval_ms ≠ 0 ∧ st.report_countdown_ms ≤ 0) := by
    rcases hrep with h | h
    · exact fun hc => hc.1 h
    · exact fun hc => by omega
  refine ⟨?_, ?_, ?_, rfl⟩
  · simp [pollIteration, pollAction, hsig, hnr]
  · simp [pollIteration, pollAction, hsig, hnr]
  · intro hnone
    simp [pollIteration, pollAction, hsig, hnr, hnone]

/-- C10 witness arguments: periodic reporting disabled. -/
def c10Args : PollLoopArgs := { c1Args with report_interval_ms := 0 }

/-- C10 witness world: no memory pressure. -/
def c10World : LoopWorld := ⟨⟨60, 80, 100, 100⟩, [], true, [], [], 987⟩

/-- C10 witness: the very first idle iteration with reporting disabled leaves
`sleep_ms` unassigned and sleeps the uninitialised value. -/
theorem C10_idle_sleep_frame_witness :
    (pollIteration c10Args initialLoopState c10World).1.sleep_ms =
      initialLoopState.sleep_ms ∧
    (pollIteration c10Args initialLoopState c10World).2.slept =
      initialLoopState.sleep_ms ∧
    (initialLoopState.sleep_ms = none →
      (pollIteration c10Args initialLoopState c10World).2.sleptActual =
        c10World.uninitSleep) ∧
    initialLoopState.sleep_ms = none :=
  C10_idle_sleep_frame c10Args initialLoopState c10World (by decide) (Or.inl rfl)

/-- With `--dryrun` every signal `kill_largest_process` delivers is the no-op
signal 0: a real signal is suppressed inside `kill_wait` (kill.c lines 79-82),
and the startup self-test signal 0 is exempt from the dryrun guard. -/
theorem kill_largest_process_dryrun (args : PollLoopArgs) (entries : List ProcEntry)
    (sig : Int) (kwInitOk : Bool) (kwTicks : List KWTick)
    (hd : args.dryrun = true) :
    ∀ ev ∈ kill_largest_process args entries sig kwInitOk kwTicks, ev.2 = 0 := by
  intro ev hev
  simp only [kill_largest_process] at hev
  by_cases hs : sig = 0
  · subst hs
    rw [show ∀ p : Int, kill_wait args p 0 kwInitOk kwTicks =
        (if kwInitOk = true then (⟨.noWait, none, [(p, 0)]⟩ : KWOut)
         else ⟨.sigfail, none, []⟩) from
        fun p => by rcases hk : kwInitOk with _ | _ <;> simp [kill_wait, hd, hk]] at hev
    split_ifs at hev <;> simp_all
  · rw [show ∀ p : Int, kill_wait args p sig kwInitOk kwTicks =
        ⟨.dryrunSkip, none, []⟩ from fun p => by simp [kill_wait, hd, hs]] at hev
    split_ifs at hev <;> simp_all

set_option maxRecDepth 4096 in
/-- C6 (amended): with `dryrun = true`, in every control-loop iteration that
does not take the emergency path, every delivered signal is numbered 0 — the
kill path goes through `kill_wait`, which honours dryrun. The emergency path,
however, still delivers SIGKILL: `kill_emergency` calls `kill()` directly and
never consults `dryrun` (kill.c lines 451-455). -/
theorem C6_dryrun_no_kill (args : PollLoopArgs) (st : LoopState) (w : LoopWorld)
    (hd : args.dryrun = true)
    (hem : (pollIteration args st w).2.emergencyFired = false) :
    ((pollIteration args st w).2.events).all (fun ev => ev.2 == 0) = true := by
  rw [List.all_eq_true]
  intro ev hev
  rw [beq_iff_eq]
  set d := loop_decide args w.mem st.hystis st.emergency_timeout_ms st.current_setpoint
    with hdd
  have hevents : (pollIteration args st w).2.events = (pollAction args st w d).events := rfl
  have hfired : (pollIteration args st w).2.emergencyFired =
      (pollAction args st w d).emergFired := rfl
  rw [hevents] at hev
  rw [hfired] at hem
  by_cases hs : d.sig ≠ 0
  · by_cases hei : d.emergency_invoked = true
    · exfalso
      rw [show pollAction args st w d =
          ⟨some 2000, d.sig, EMERGENCY_TIMEOUT, st.report_countdown_ms,
           (kill_emergency args (args.emerg_kill.getD []) w.emergSteps).2,
           (kill_emergency args (args.emerg_kill.getD []) w.emergSteps).1, true⟩ from by
        simp [pollAction, hs, hei]] at hem
      simp at hem
    · rw [show pollAction args st w d =
          ⟨some (if d.hystis = SIGKILL then (50 : Nat) else 500), d.sig,
           st.emergency_timeout_ms, st.report_countdown_ms,
           kill_largest_process args w.scanEntries d.sig w.kwInitOk w.kwTicks, 0,
           false⟩ from by simp [pollAction, hs, hei]] at hev
      exact kill_largest_process_dryrun args w.scanEntries d.sig w.kwInitOk w.kwTicks
        hd ev hev
  · have hev2 : ev ∈ (pollAction args st w d).events → False := by
      intro hx
      simp only [pollAction, if_neg hs] at hx
      split_ifs at hx <;> simp at hx
    exact absurd hev hev2

/-- C6 counterexample arguments: dryrun enabled AND an emergency list
configured. -/
def c6Args : PollLoopArgs := { c1Args with dryrun := true, emerg_kill := some ["x"] }

/-- C6 counterexample world: catastrophic memory pressure and one process
named "x" for the emergency scan to find. -/
def c6World : LoopWorld :=
  ⟨⟨1, 0, 100, 100⟩, [], true, [], [⟨⟨1, 0, 100, 100⟩, [⟨2, some "x"⟩]⟩], 0⟩

/-- C6 (counterexample): the claim says that with dryrun=true no signal ≠ 0 is
ever delivered in any reachable state — but the very first iteration under
catastrophic pressure takes the emergency path, and `kill_emergency` delivers
a real SIGKILL to pid 2 despite dryrun (kill.c line 453 has no dryrun
guard). -/
theorem C6_counterexample :
    c6Args.dryrun = true ∧
    (2, SIGKILL) ∈ (pollIteration c6Args initialLoopState c6World).2.events ∧
    SIGKILL ≠ 0 := by
  refine ⟨rfl, ?_, by decide⟩
  decide

/-- C6 witness state and world: dryrun on, memory at or below the kill limits,
no emergency list, a victim available; the kill path runs and delivers
nothing. -/
def c6wWorld : LoopWorld := ⟨⟨4, 3, 100, 100⟩, [c1Entry2], true, [], [], 0⟩

/-- C6 witness arguments: dryrun without any emergency list. -/
def c6wArgs : PollLoopArgs := { c1Args with dryrun := true }

/-- C6 witness: the amended dryrun theorem instantiated at a concrete
SIGKILL-path iteration. -/
theorem C6_dryrun_no_kill_witness :
    ((pollIteration c6wArgs initialLoopState c6wWorld).2.events).all
      (fun ev => ev.2 == 0) = true :=
  C6_dryrun_no_kill c6wArgs initialLoopState c6wWorld rfl (by decide)

/-- Per iteration, `emergency_timeout_ms` decreases by at most the slept
duration: the final decrement subtracts the slept time only while the counter
is positive, and the emergency path can only raise the counter (it re-arms it
at `EMERGENCY_TIMEOUT` from a non-positive value). -/
theorem pollIteration_etimeout_lower (args : PollLoopArgs) (st : LoopState)
    (w : LoopWorld) :
    st.emergency_timeout_ms - ((pollIteration args st w).2.sleptActual : Int) ≤
      (pollIteration args st w).1.emergency_timeout_ms := by
  set d := loop_decide args w.mem st.hystis st.emergency_timeout_ms st.current_setpoint
    with hdd
  set a := pollAction args st w d with ha
  have h1 : (pollIteration args st w).1.emergency_timeout_ms =
      (if 0 < a.etimeout1
       then a.etimeout1 - ((a.sleep1.getD w.uninitSleep : Nat) : Int)
       else a.etimeout1) := rfl
  have h2 : (pollIteration args st w).2.sleptActual = a.sleep1.getD w.uninitSleep := rfl
  rw [h1, h2]
  by_cases hs : d.sig ≠ 0
  · by_cases hei : d.emergency_invoked = true
    · have hc := loop_decide_emerg_cooldown args w.mem st.hystis
        st.emergency_timeout_ms st.current_setpoint hei
      have he1 : a.etimeout1 = EMERGENCY_TIMEOUT := by
        rw [ha]
        simp [pollAction, hs, hei]
      rw [he1]
      simp only [EMERGENCY_TIMEOUT]
      split_ifs <;> omega
    · have he1 : a.etimeout1 = st.emergency_timeout_ms := by
        rw [ha]
        simp [pollAction, hs, hei]
      rw [he1]
      split_ifs <;> omega
  · have he1 : a.etimeout1 = st.emergency_timeout_ms := by
      rw [ha]
      simp only [pollAction, if_neg hs]
      split_ifs <;> rfl
    rw [he1]
    split_ifs <;> omega

/-- An iteration that fires the emergency path started with an expired
cooldown, sleeps exactly 2000 ms, and leaves `emergency_timeout_ms` at
`30000 - 2000 = 28000`. -/
theorem pollIteration_emerg_start (args : PollLoopArgs) (st : LoopState)
    (w : LoopWorld)
    (h : (pollIteration args st w).2.emergencyFired = true) :
    st.emergency_timeout_ms ≤ 0 ∧
    (pollIteration args st w).2.sleptActual = 2000 ∧
    (pollIteration args st w).1.emergency_timeout_ms = 28000 := by
  set d := loop_decide args w.mem st.hystis st.emergency_timeout_ms st.current_setpoint
    with hdd
  set a := pollAction args st w d with ha
  have hf : (pollIteration args st w).2.emergencyFired = a.emergFired := rfl
  have h2 : (pollIteration args st w).2.sleptActual = a.sleep1.getD w.uninitSleep := rfl
  have h1 : (pollIteration args st w).1.emergency_timeout_ms =
      (if 0 < a.etimeout1
       then a.etimeout1 - ((a.sleep1.getD w.uninitSleep : Nat) : Int)
       else a.etimeout1) := rfl
  rw [hf] at h
  by_cases hs : d.sig ≠ 0
  · by_cases hei : d.emergency_invoked = true
    · have ha2 : a = ⟨some 2000, d.sig, EMERGENCY_TIMEOUT, st.report_countdown_ms,
          (kill_emergency args (args.emerg_kill.getD []) w.emergSteps).2,
          (kill_emergency args (args.emerg_kill.getD []) w.emergSteps).1, true⟩ := by
        rw [ha]
        simp [pollAction, hs, hei]
      refine ⟨loop_decide_emerg_cooldown args w.mem st.hystis st.emergency_timeout_ms
        st.current_setpoint hei, ?_, ?_⟩
      · rw [h2, ha2]
        rfl
      · rw [h1, ha2]
        simp [EMERGENCY_TIMEOUT]
    · exfalso
      rw [ha] at h
      simp [pollAction, hs, hei] at h
  · exfalso
    rw [ha] at h
    simp only [pollAction, if_neg hs] at h
    split_ifs at h <;> simp at h

/-- A run produces one output per world. -/
theorem loopOuts_length (args : PollLoopArgs) :
    ∀ (ws : List LoopWorld) (st : LoopState),
      (loopOuts args st ws).length = ws.length := by
  intro ws
  induction ws with
  | nil => intro st; rfl
  | cons w ws ih => intro st; simp [loopOuts, ih]

/-- Dropping the first `i` outputs of a run is the run of the dropped worlds
from the intermediate state. -/
theorem loopOuts_drop (args : PollLoopArgs) :
    ∀ (i : Nat) (ws : List LoopWorld) (st : LoopState),
      (loopOuts args st ws).drop i =
        loopOuts args (stateAfterRun args st (ws.take i)) (ws.drop i) := by
  intro i
  induction i with
  | zero => intro ws st; simp [stateAfterRun]
  | succ i ih =>
    intro ws st
    cases ws with
    | nil => simp [loopOuts, stateAfterRun]
    | cons w ws =>
      have hout : loopOuts args st (w :: ws) =
          (pollIteration args st w).2 ::
            loopOuts args (pollIteration args st w).1 ws := rfl
      have htake : stateAfterRun args st ((w :: ws).take (i + 1)) =
          stateAfterRun args (pollIteration args st w).1 (ws.take i) := rfl
      rw [hout, htake, List.drop_succ_cons, List.drop_succ_cons]
      exact ih ws (pollIteration args st w).1

/-- While the emergency cooldown is positive, no iteration can fire the
emergency path before the accumulated in-loop slept time has drained it. -/
theorem emerg_drain (args : PollLoopArgs) :
    ∀ (ws : List LoopWorld) (st : LoopState) (j : Nat),
      0 < st.emergency_timeout_ms →
      j < (loopOuts args st ws).length →
      ((loopOuts args st ws).getD j dIterOut).emergencyFired = true →
      st.emergency_timeout_ms ≤
        (((((loopOuts args st ws).map (fun o => o.sleptActual)).take j).sum : Nat) : Int) := by
  intro ws
  induction ws with
  | nil =>
    intro st j h0 hj hem
    simp [loopOuts] at hj
  | cons w ws ih =>
    intro st j h0 hj hem
    have hout : loopOuts args st (w :: ws) =
        (pollIteration args st w).2 ::
          loopOuts args (pollIteration args st w).1 ws := rfl
    match j with
    | 0 =>
      rw [hout, List.getD_cons_zero] at hem
      have := (pollIteration_emerg_start args st w hem).1
      omega
    | j + 1 =>
      rw [hout, List.length_cons] at hj
      rw [hout, List.getD_cons_succ] at hem
      have hsumN : (((loopOuts args st (w :: ws)).map
            (fun o => o.sleptActual)).take (j + 1)).sum =
          (pollIteration args st w).2.sleptActual +
            (((loopOuts args (pollIteration args st w).1 ws).map
              (fun o => o.sleptActual)).take j).sum := by
        rw [hout]
        simp [List.take_succ_cons]
      rw [hsumN]
      have hlow := pollIteration_etimeout_lower args st w
      by_cases h1 : 0 < (pollIteration args st w).1.emergency_timeout_ms
      · have hrec := ih (pollIteration args st w).1 j h1 (by omega) hem
        omega
      · omega

/-- C7: after an iteration fires the emergency action, no later iteration
fires it again until at least 30000 ms of accumulated in-loop slept time have
elapsed (the firing iteration's own 2000 ms sleep included), regardless of the
memory readings in between: the firing iteration arms
`emergency_timeout_ms = 30000`, every iteration decrements it by exactly the
slept duration while positive, and the emergency branch requires it to be
non-positive (main.c lines 462-463, 499-521). -/
theorem C7_emergency_debounce (args : PollLoopArgs) (st : LoopState)
    (ws : List LoopWorld) (i j : Nat)
    (hij : i < j) (hj : j < (loopOuts args st ws).length)
    (hi : ((loopOuts args st ws).getD i dIterOut).emergencyFired = true)
    (hjE : ((loopOuts args st ws).getD j dIterOut).emergencyFired = true) :
    30000 ≤ ((((loopOuts args st ws).map
      (fun o => o.sleptActual)).drop i).take (j - i)).sum := by
  have hlen := loopOuts_length args ws st
  have hdrop := loopOuts_drop args i ws st
  obtain ⟨w0, ws1, hw⟩ : ∃ w0 ws1, ws.drop i = w0 :: ws1 := by
    cases hcase : ws.drop i with
    | nil =>
      exfalso
      have hle := List.drop_eq_nil_iff_le.mp hcase
      omega
    | cons a b => exact ⟨a, b, rfl⟩
  set st0 := stateAfterRun args st (ws.take i) with hst0
  have hgi : ((loopOuts args st ws).getD i dIterOut) =
      ((loopOuts args st ws).drop i).getD 0 dIterOut := by
    simp [List.getD, List.getElem?_drop]
  have hadd : i + (j - i) = j := by omega
  have hgj : ((loopOuts args st ws).getD j dIterOut) =
      ((loopOuts args st ws).drop i).getD (j - i) dIterOut := by
    simp only [List.getD]
    rw [List.get?_drop, hadd]
  have hout : loopOuts args st0 (w0 :: ws1) =
      (pollIteration args st0 w0).2 ::
        loopOuts args (pollIteration args st0 w0).1 ws1 := rfl
  have hi0 : (pollIteration args st0 w0).2.emergencyFired = true := by
    rw [hgi, hdrop, hw, hout, List.getD_cons_zero] at hi
    exact hi
  obtain ⟨hstart, hslept0, het1⟩ := pollIteration_emerg_start args st0 w0 hi0
  have hji : j - i = (j - i - 1) + 1 := by omega
  have hj1 : ((loopOuts args (pollIteration args st0 w0).1 ws1).getD
      (j - i - 1) dIterOut).emergencyFired = true := by
    rw [hgj, hdrop, hw, hout, hji, List.getD_cons_succ] at hjE
    exact hjE
  have hws1len : ws1.length = ws.length - i - 1 := by
    have hdl := congrArg List.length hw
    simp only [List.length_drop, List.length_cons] at hdl
    omega
  have hlen1 : j - i - 1 < (loopOuts args (pollIteration args st0 w0).1 ws1).length := by
    rw [loopOuts_length]
    omega
  have hdrain := emerg_drain args ws1 (pollIteration args st0 w0).1 (j - i - 1)
    (by rw [het1]; decide) hlen1 hj1
  rw [het1] at hdrain
  have hmapdrop : (((loopOuts args st ws).map (fun o => o.sleptActual)).drop i) =
      (((loopOuts args st ws).drop i).map (fun o => o.sleptActual)) :=
    Eq.symm (List.map_drop _ _ _)
  rw [hmapdrop, hdrop, hw, hout, hji]
  simp only [List.map_cons, List.take_succ_cons, List.sum_cons]
  omega

/-- C7 witness arguments: an emergency list configured, periodic reporting
disabled. -/
def c7Args : PollLoopArgs :=
  { c1Args with emerg_kill := some ["x"], report_interval_ms := 0 }

/-- C7 witness world under catastrophic memory pressure. -/
def c7WEm : LoopWorld := ⟨⟨1, 0, 100, 100⟩, [], true, [], [], 0⟩

/-- C7 witness world with recovered memory. -/
def c7WIdle : LoopWorld := ⟨⟨60, 80, 100, 100⟩, [], true, [], [], 0⟩

/-- C7 witness schedule: an emergency at iteration 0 (sleep 2000 ms), fourteen
idle iterations re-using the 2000 ms sleep, then the cooldown reaches 0 and a
second emergency fires at iteration 15. -/
def c7Worlds : List LoopWorld := c7WEm :: (List.replicate 14 c7WIdle ++ [c7WEm])

set_option maxRecDepth 100000 in
/-- C7 witness: on the concrete schedule the two emergencies are separated by
exactly 15 × 2000 ms = 30000 ms of in-loop sleep. -/
theorem C7_emergency_debounce_witness :
    30000 ≤ ((((loopOuts c7Args initialLoopState c7Worlds).map
      (fun o => o.sleptActual)).drop 0).take (15 - 0)).sum :=
  C7_emergency_debounce c7Args initialLoopState c7Worlds 0 15
    (by decide) (by decide) (by decide) (by decide)
